import Mathlib

/-!
Formal model of gevent's locking primitives (`gevent/lock.py`): the pure
counting semaphore `PySemaphore`, the `DummySemaphore` no-op substitute,
`BoundedSemaphore`, and the reentrant lock `RLock`.

The embedding is shallow: the mutable Python objects become records that
are threaded explicitly, Python `int` becomes `Int`, a waiter callback is
identified by an opaque id (`Waiter`) whose behaviour during the drain pass
is supplied by an environment function, and raising an exception becomes
returning `Except.error`.  The blocking branches of `acquire` and `wait`
(which suspend the calling greenlet on `hub.switch()`) are modelled by a
resume function taking the state of the semaphore at resume time plus a
`SwitchOutcome` describing how the suspension ended.
-/

namespace GeventLock

/-- Identity of a registered wake callback (a Python callable such as a
greenlet's `switch` bound method).  Callbacks are compared by identity in
`list.remove`, so an opaque id suffices. -/
abbrev Waiter := Nat

/-- Identity of a cooperatively-scheduled task (a greenlet, as returned by
`getcurrent()`). -/
abbrev Task := Nat

/-- The exception classes the module raises or handles, by Python class. -/
inductive ExcKind where
  | valueError
  | typeError
  | runtimeError
  | assertionError
  | timeoutError
deriving DecidableEq, Repr

/-- A raised Python exception: its class together with its message. -/
structure Exc where
  kind : ExcKind
  msg : String
deriving DecidableEq, Repr

/-- State of a `PySemaphore`:
`links` is `self._links` (the ordered waiter-callback list),
`counter` is `self.counter`,
`dirty` is `self._dirty` (set by `rawlink`/`unlink`, examined by the drain),
`notifierActive` is `self._notifier.active` (whether the deferred drain
callback is currently scheduled on the hub's loop). -/
structure Sem where
  links : List Waiter
  counter : Int
  dirty : Bool
  notifierActive : Bool
deriving DecidableEq, Repr

/-- `PySemaphore.__init__(value)`: raises `ValueError` for a negative
value, otherwise produces the fresh state (`_links = []`, counter set,
notifier allocated but not started). -/
def pySemaphoreInit (value : Int) : Except Exc Sem :=
  if value < 0 then
    .error ⟨.valueError, "semaphore initial value must be >= 0"⟩
  else
    .ok { links := [], counter := value, dirty := false, notifierActive := false }

/-- `PySemaphore.locked()`: `self.counter <= 0`. -/
def locked (s : Sem) : Bool :=
  s.counter ≤ 0

/-- `PySemaphore._start_notify()`: start the notifier callback exactly when
`self._links and self.counter > 0 and not self._notifier.active`.  The
returned `Bool` records whether `self._notifier.start` was invoked. -/
def startNotify (s : Sem) : Sem × Bool :=
  if !s.links.isEmpty && decide (0 < s.counter) && !s.notifierActive then
    ({ s with notifierActive := true }, true)
  else
    (s, false)

/-- Observable events of a drain pass: `invoke w c` records that callback
`w` was called with the semaphore as argument while `counter = c`;
`report w e` records that exception `e` escaping callback `w` was handed to
`hub.handle_error` with context `(link, self)`. -/
inductive Ev where
  | invoke (w : Waiter) (preCounter : Int)
  | report (w : Waiter) (e : Exc)
deriving DecidableEq, Repr

/-- `PySemaphore.release()`: increment the counter, then `_start_notify`.
The body runs no waiter callback, hence the (empty) synchronous event
trace; the `Bool` is `_start_notify`'s "notifier started" flag. -/
def release (s : Sem) : Sem × Bool × List Ev :=
  let s1 := { s with counter := s.counter + 1 }
  let p := startNotify s1
  (p.1, p.2, [])

/-- `PySemaphore.rawlink(callback)`: append the callback and set `_dirty`.
(The source's `TypeError` for a non-callable cannot arise here because a
`Waiter` id always stands for a callable.) -/
def rawlink (s : Sem) (cb : Waiter) : Sem :=
  { s with links := s.links ++ [cb], dirty := true }

/-- Python's `list.remove`: drop the first occurrence, or report failure
(`ValueError`) as `none`. -/
def removeFirst : List Waiter → Waiter → Option (List Waiter)
  | [], _ => none
  | x :: xs, cb =>
    if x = cb then
      some xs
    else
      match removeFirst xs cb with
      | some ys => some (x :: ys)
      | none => none

/-- `PySemaphore.unlink(callback)`: `self._links.remove(callback)` and set
`_dirty`, swallowing the `ValueError` raised when the callback is absent
(in which case nothing at all is mutated). -/
def unlink (s : Sem) (cb : Waiter) : Sem :=
  match removeFirst s.links cb with
  | some l => { s with links := l, dirty := true }
  | none => s

/-- Behaviour of the waiter callbacks during a drain: invoking callback `w`
on semaphore state `t` yields the mutated state together with the
exception it raised, if any.  (Per the shared-resource policy, callbacks
mutate `_links` only through `rawlink`/`unlink`, which set `_dirty`; this
is what makes iterating a snapshot of the list faithful, since the drain
breaks out of the scan immediately after the first dirtying callback.) -/
abbrev CbEnv := Waiter → Sem → Sem × Option Exc

/-- How one `for link in self._links` scan of `_notify_links` ended:
`ret` is the `return` taken when `counter <= 0`, `restart` is the
`break` taken when `_dirty` was set (the outer loop then re-scans), and
`done` means the scan finished with `_dirty` still clear. -/
inductive PassOut where
  | ret
  | restart
  | done
deriving DecidableEq, Repr

/-- One `for` scan of `_notify_links` over (a snapshot of) the waiter
list: before each callback the `counter <= 0` early return is checked; the
callback's exception, if any, is reported and the scan continues; a
dirtied list breaks the scan. -/
def notifyPass (env : CbEnv) : List Waiter → Sem → Sem × List Ev × PassOut
  | [], s => (s, [], .done)
  | w :: rest, s =>
    if s.counter ≤ 0 then
      (s, [], .ret)
    else
      let r := env w s
      let evs := Ev.invoke w s.counter ::
        (match r.2 with
         | some e => [Ev.report w e]
         | none => [])
      if r.1.dirty then
        (r.1, evs, .restart)
      else
        let t := notifyPass env rest r.1
        (t.1, evs ++ t.2.1, t.2.2)

/-- `PySemaphore._notify_links()`: the `while True` drain loop, clearing
`_dirty` before each scan and re-scanning while the scan ended on a dirty
break.  `fuel` bounds the number of scans (the source can loop as long as
callbacks keep mutating the list). -/
def notifyLinks (env : CbEnv) : Nat → Sem → Sem × List Ev
  | 0, s => (s, [])
  | fuel + 1, s =>
    let p := notifyPass env s.links { s with dirty := false }
    match p.2.2 with
    | .restart =>
      let q := notifyLinks env fuel p.1
      (q.1, p.2.1 ++ q.2)
    | _ => (p.1, p.2.1)

/-- How a suspension on `self.hub.switch()` ended:
`resumed isSelf` — the task was switched back into with a value, and
`isSelf` records whether that value is the semaphore itself (the drain
switches with `self`; anything else trips the `assert`);
`timeoutFired own e` — a `Timeout` exception `e` was raised into the task,
`own` recording whether it is the very timer armed by this call
(`ex is timer`); `raised e` — some non-`Timeout` exception was raised into
the task. -/
inductive SwitchOutcome where
  | resumed (isSelf : Bool)
  | timeoutFired (isOwnTimer : Bool) (e : Exc)
  | raised (e : Exc)
deriving DecidableEq, Repr

/-- Result of the innermost `try/except Timeout` of `acquire`:
fall through to the trailing decrement, `return False`, or re-raise. -/
inductive InnerStep where
  | proceed
  | retFalse
  | toRaise (e : Exc)
deriving DecidableEq, Repr

/-- The innermost `try/except Timeout` block of `PySemaphore.acquire`:
a normal switch asserts the payload is the semaphore; the call's own
timeout turns into `return False`; any other `Timeout` or error re-raises. -/
def acquireInner : SwitchOutcome → InnerStep
  | .resumed true => .proceed
  | .resumed false => .toRaise ⟨.assertionError, "Invalid switch into Semaphore.acquire()"⟩
  | .timeoutFired true _ => .retFalse
  | .timeoutFired false e => .toRaise e
  | .raised e => .toRaise e

/-- The innermost `try/except Timeout` block of `PySemaphore.wait`: same
as `acquire` except that the call's own timeout is swallowed and control
falls through to `return self.counter`. -/
def waitInner : SwitchOutcome → InnerStep
  | .resumed true => .proceed
  | .resumed false => .toRaise ⟨.assertionError, "Invalid switch into Semaphore.wait()"⟩
  | .timeoutFired true _ => .proceed
  | .timeoutFired false e => .toRaise e
  | .raised e => .toRaise e

deriving instance DecidableEq for Except

/-- Exit record of the blocking branch of `acquire`: the returned value or
propagated exception, the semaphore state after both `finally` blocks, and
whether `timer.cancel()` ran. -/
structure BlockExit where
  result : Except Exc Bool
  sem : Sem
  timerCancelled : Bool
deriving DecidableEq, Repr

/-- Exit record of the blocking branch of `wait` (which returns the
counter, an integer, rather than a boolean). -/
structure WaitExit where
  result : Except Exc Int
  sem : Sem
  timerCancelled : Bool
deriving DecidableEq, Repr

/-- The blocking branch of `PySemaphore.acquire` from the moment the task
is resumed, applied to the semaphore state `s` at resume time: the inner
`try/except Timeout` resolves the switch outcome, the inner `finally` runs
`timer.cancel()`, the outer `finally` runs `self.unlink(switch)`, and on
fall-through the counter is decremented and `assert self.counter >= 0`
checked (an `AssertionError` propagates after the decrement). -/
def acquireResume (s : Sem) (cb : Waiter) (o : SwitchOutcome) : BlockExit :=
  let s1 := unlink s cb
  match acquireInner o with
  | .retFalse => ⟨.ok false, s1, true⟩
  | .toRaise e => ⟨.error e, s1, true⟩
  | .proceed =>
    let s2 := { s1 with counter := s1.counter - 1 }
    if 0 ≤ s2.counter then
      ⟨.ok true, s2, true⟩
    else
      ⟨.error ⟨.assertionError, "assert self.counter >= 0"⟩, s2, true⟩

/-- The blocking branch of `PySemaphore.wait` from the moment the task is
resumed: like `acquireResume` but without any decrement, ending in
`return self.counter`. -/
def waitResume (s : Sem) (cb : Waiter) (o : SwitchOutcome) : WaitExit :=
  let s1 := unlink s cb
  match waitInner o with
  | .toRaise e => ⟨.error e, s1, true⟩
  | _ => ⟨.ok s1.counter, s1, true⟩

/-- `PySemaphore.acquire(blocking, timeout)` in full.  The fast paths
(`counter > 0`, or non-blocking failure) never suspend, arm no timer and
touch no waiter registration.  Otherwise the call registers `cb` via
`rawlink`, suspends — `interim` is the arbitrary mutation other tasks
perform on the semaphore while this one is suspended — and finishes as
`acquireResume` with switch outcome `o`. -/
def acquireCall (s : Sem) (blocking : Bool) (cb : Waiter)
    (interim : Sem → Sem) (o : SwitchOutcome) : BlockExit :=
  if 0 < s.counter then
    ⟨.ok true, { s with counter := s.counter - 1 }, false⟩
  else if !blocking then
    ⟨.ok false, s, false⟩
  else
    acquireResume (interim (rawlink s cb)) cb o

/-- `PySemaphore.wait(timeout)` in full, mirroring `acquireCall`: with a
positive counter it returns the counter immediately, otherwise it
registers, suspends and finishes as `waitResume`. -/
def waitCall (s : Sem) (cb : Waiter)
    (interim : Sem → Sem) (o : SwitchOutcome) : WaitExit :=
  if 0 < s.counter then
    ⟨.ok s.counter, s, false⟩
  else
    waitResume (interim (rawlink s cb)) cb o

/-- A Python value as returned by `DummySemaphore`'s methods: `pass`
returns `None`; `locked` returns a boolean. -/
inductive PyVal where
  | none
  | bool (b : Bool)
  | int (n : Int)
deriving DecidableEq, Repr

/-- An operation scripted against a `DummySemaphore`. -/
inductive DOp where
  | locked
  | release
  | rawlink (w : Waiter)
  | unlink (w : Waiter)
  | wait (timeout : Option Int)
  | acquire (blocking : Bool) (timeout : Option Int)
  | enter
  | exit
deriving DecidableEq, Repr

/-- `DummySemaphore`: stateless; `locked()` returns `False`; every other
method body is `pass`, i.e. returns `None`.  No method suspends and no
method raises (the return type is a plain value, not an `Except`). -/
def dummyStep : DOp → PyVal
  | .locked => .bool false
  | _ => .none

/-- Running a script of operations against a `DummySemaphore`: there is no
state to thread, so the run is just the list of returned values. -/
def dummyRun (ops : List DOp) : List PyVal :=
  ops.map dummyStep

/-- State of a `BoundedSemaphore`: the underlying `Semaphore` state plus
`self._initial_value`. -/
structure BSem where
  sem : Sem
  initialValue : Int
deriving DecidableEq, Repr

/-- `BoundedSemaphore.__init__(value)`: `Semaphore.__init__` plus
recording `_initial_value`. -/
def boundedInit (value : Int) : Except Exc BSem :=
  match pySemaphoreInit value with
  | .error e => .error e
  | .ok s => .ok { sem := s, initialValue := value }

/-- `BoundedSemaphore.release()`: raise
`ValueError("Semaphore released too many times")` when
`self.counter >= self._initial_value` — the exception is raised before any
mutation, so the returned state is the input state unchanged — otherwise
delegate to `Semaphore.release`.  The `Bool` and trace are `release`'s
notifier-started flag and synchronous-callback trace. -/
def boundedRelease (b : BSem) : Except Exc Unit × BSem × Bool × List Ev :=
  if b.initialValue ≤ b.sem.counter then
    (.error ⟨.valueError, "Semaphore released too many times"⟩, b, false, [])
  else
    let r := release b.sem
    (.ok (), { b with sem := r.1 }, r.2.1, r.2.2)

/-- State of an `RLock`: `_block` (a `Semaphore(1)`), `_owner` (the
greenlet holding the lock, if any) and `_count` (the recursion depth). -/
structure RLock where
  block : Sem
  owner : Option Task
  count : Int
deriving DecidableEq, Repr

/-- `RLock.__init__()`: `_block = Semaphore(1)`, no owner, zero count. -/
def rlockNew : RLock :=
  { block := { links := [], counter := 1, dirty := false, notifierActive := false },
    owner := none,
    count := 0 }

/-- `RLock.acquire(blocking)` with `me = getcurrent()`: the reentrant fast
path bumps `_count` and returns `1` (truthy) without touching `_block`;
otherwise the inner `_block.acquire(blocking)` runs (parameterised like
`acquireCall` for its possible suspension) and on a truthy result the
owner and count are installed.  An exception from the inner acquire
propagates; the mutated `_block` is kept either way. -/
def rlockAcquire (l : RLock) (me : Task) (blocking : Bool) (cb : Waiter)
    (interim : Sem → Sem) (o : SwitchOutcome) : Except Exc Bool × RLock :=
  if l.owner = some me then
    (.ok true, { l with count := l.count + 1 })
  else
    let e := acquireCall l.block blocking cb interim o
    match e.result with
    | .error ex => (.error ex, { l with block := e.sem })
    | .ok rc =>
      if rc then
        (.ok true, { block := e.sem, owner := some me, count := 1 })
      else
        (.ok false, { l with block := e.sem })

/-- `RLock.release()` with `me = getcurrent()`: raise `RuntimeError` if
`me` is not the owner (no mutation); otherwise decrement `_count`, and on
reaching zero clear the owner and release `_block`.  The `Bool` is the
inner release's notifier-started flag. -/
def rlockRelease (l : RLock) (me : Task) : Except Exc (RLock × Bool) :=
  if l.owner ≠ some me then
    .error ⟨.runtimeError, "cannot release un-aquired lock"⟩
  else
    let c := l.count - 1
    if c = 0 then
      let r := release l.block
      .ok ({ block := r.1, owner := none, count := 0 }, r.2.1)
    else
      .ok ({ l with count := c }, false)

/-- `RLock._is_owned()` with `me = getcurrent()`. -/
def rlockIsOwned (l : RLock) (me : Task) : Bool :=
  l.owner = some me

/-- `n` consecutive `acquire()` calls on a semaphore by one task, stopping
at the first call that does not return `True`.  (The suspension
parameters are irrelevant on the immediate paths exercised here.) -/
def acquireN : Nat → Sem → Bool × Sem
  | 0, s => (true, s)
  | n + 1, s =>
    let r := acquireCall s true 0 id (.resumed true)
    match r.result with
    | .ok true => acquireN n r.sem
    | _ => (false, r.sem)

/-- `n` consecutive `RLock.acquire()` calls by task `me`, stopping at the
first non-`True` result or propagated exception. -/
def rlockAcquireN : Nat → RLock → Task → Except Exc (Bool × RLock)
  | 0, l, _ => .ok (true, l)
  | n + 1, l, me =>
    match rlockAcquire l me true 0 id (.resumed true) with
    | (.ok true, l2) => rlockAcquireN n l2 me
    | (.ok false, l2) => .ok (false, l2)
    | (.error e, _) => .error e

/-- `n` consecutive `RLock.release()` calls by task `me`, stopping at the
first propagated exception. -/
def rlockReleaseN : Nat → RLock → Task → Except Exc RLock
  | 0, l, _ => .ok l
  | n + 1, l, me =>
    match rlockRelease l me with
    | .ok p => rlockReleaseN n p.1 me
    | .error e => .error e

/-- The `RLock` state after task `me` has taken the lock and re-entered it
to depth `j`: `_block` consumed (counter 0), owner `me`, count `j`. -/
def lockHeld (me : Task) (j : Nat) : RLock :=
  { block := { links := [], counter := 0, dirty := false, notifierActive := false },
    owner := some me,
    count := (j : Int) }

/-! ### Helper lemmas -/

theorem startNotify_spec (s : Sem) :
    ((startNotify s).2 = true ↔ (s.links ≠ [] ∧ 0 < s.counter ∧ s.notifierActive = false)) ∧
    (startNotify s).1.counter = s.counter ∧
    (startNotify s).1.links = s.links ∧
    (startNotify s).1.dirty = s.dirty ∧
    ((startNotify s).2 = false → (startNotify s).1 = s) ∧
    ((startNotify s).2 = true → (startNotify s).1.notifierActive = true) := by
  obtain ⟨ls, c, d, a⟩ := s
  by_cases hc : 0 < c <;> cases ls <;> cases a <;> simp [startNotify, hc]

theorem release_counter (s : Sem) : (release s).1.counter = s.counter + 1 := by
  simpa [release] using (startNotify_spec { s with counter := s.counter + 1 }).2.1

theorem release_links (s : Sem) : (release s).1.links = s.links := by
  simpa [release] using (startNotify_spec { s with counter := s.counter + 1 }).2.2.1

theorem removeFirst_eq_none_iff : ∀ (l : List Waiter) (cb : Waiter),
    removeFirst l cb = none ↔ cb ∉ l
  | [], cb => by simp [removeFirst]
  | x :: xs, cb => by
    have ih := removeFirst_eq_none_iff xs cb
    by_cases hx : x = cb
    · simp [removeFirst, hx]
    · cases hr : removeFirst xs cb with
      | some ys =>
        have hmem : cb ∈ xs := by
          by_contra hne
          rw [← ih] at hne
          simp [hne] at hr
        simp [removeFirst, hx, hr, hmem]
      | none =>
        have hnot : cb ∉ xs := ih.mp hr
        have hxc : ¬cb = x := fun hcx => hx hcx.symm
        simp [removeFirst, hx, hr, hnot, hxc]

theorem removeFirst_length : ∀ (l l2 : List Waiter) (cb : Waiter),
    removeFirst l cb = some l2 → l2.length + 1 = l.length
  | [], _, cb => by simp [removeFirst]
  | x :: xs, l2, cb => by
    intro h
    by_cases hx : x = cb
    · simp only [removeFirst, if_pos hx, Option.some_inj] at h
      subst h
      simp
    · simp only [removeFirst, if_neg hx] at h
      cases hr : removeFirst xs cb with
      | some ys =>
        rw [hr] at h
        obtain rfl := Option.some_inj.mp h
        have ih := removeFirst_length xs ys cb hr
        simp only [List.length_cons]
        omega
      | none =>
        rw [hr] at h
        cases h

theorem removeFirst_count : ∀ (l l2 : List Waiter) (cb : Waiter),
    removeFirst l cb = some l2 → l2.count cb + 1 = l.count cb
  | [], _, cb => by simp [removeFirst]
  | x :: xs, l2, cb => by
    intro h
    by_cases hx : x = cb
    · simp only [removeFirst, if_pos hx, Option.some_inj] at h
      subst h
      subst hx
      simp [List.count_cons]
    · simp only [removeFirst, if_neg hx] at h
      cases hr : removeFirst xs cb with
      | some ys =>
        rw [hr] at h
        obtain rfl := Option.some_inj.mp h
        have ih := removeFirst_count xs ys cb hr
        have hxc : ¬cb = x := fun hcx => hx hcx.symm
        simp only [List.count_cons, beq_iff_eq, hxc, if_false, if_neg hxc] at ih ⊢
        omega
      | none =>
        rw [hr] at h
        cases h

theorem unlink_count (s : Sem) (cb : Waiter) :
    (unlink s cb).links.count cb = s.links.count cb - 1 := by
  unfold unlink
  cases hr : removeFirst s.links cb with
  | some l2 =>
    have := removeFirst_count s.links l2 cb hr
    simp
    omega
  | none =>
    have : cb ∉ s.links := (removeFirst_eq_none_iff s.links cb).mp hr
    simp [List.count_eq_zero_of_not_mem this]

/-! ### Claim theorems -/

/-- C2: `Semaphore.release()` always increments `counter` by exactly one,
leaves the waiter list (and dirty flag) alone, runs no waiter callback
synchronously (its synchronous event trace is empty; as a total function
of the state it also never suspends), and invokes `_notifier.start` — the
scheduling of the deferred drain — exactly when the waiter list is
non-empty, the (incremented) counter is positive, and no notifier is
already active. -/
theorem release_increments_and_schedules (s : Sem) :
    (release s).1.counter = s.counter + 1 ∧
    (release s).1.links = s.links ∧
    (release s).1.dirty = s.dirty ∧
    (release s).2.2 = [] ∧
    ((release s).2.1 = true ↔
      (s.links ≠ [] ∧ 0 < s.counter + 1 ∧ s.notifierActive = false)) ∧
    ((release s).2.1 = true → (release s).1.notifierActive = true) ∧
    ((release s).2.1 = false → (release s).1.notifierActive = s.notifierActive) := by
  obtain ⟨hiff, hc, hl, hd, hfalse, htrue⟩ :=
    startNotify_spec { s with counter := s.counter + 1 }
  refine ⟨?_, ?_, ?_, rfl, ?_, ?_, ?_⟩ <;> simp only [release]
  · exact hc
  · exact hl
  · exact hd
  · simpa using hiff
  · exact htrue
  · intro hf
    have := hfalse hf
    simp [this]

/-- C8: `Semaphore.wait` never decrements the counter: whenever
`counter > 0`, `wait(timeout)` returns the counter immediately and the
whole state — counter and waiter list included — is untouched (and no
timer was armed). -/
theorem wait_positive_counter_no_decrement (s : Sem) (cb : Waiter)
    (interim : Sem → Sem) (o : SwitchOutcome) (h : 0 < s.counter) :
    waitCall s cb interim o = ⟨.ok s.counter, s, false⟩ := by
  simp [waitCall, h]

theorem wait_positive_counter_no_decrement_witness :
    0 < (2 : Int) ∧
    waitCall { links := [5], counter := 2, dirty := false, notifierActive := false }
        7 id (SwitchOutcome.resumed true)
      = ⟨.ok 2, { links := [5], counter := 2, dirty := false, notifierActive := false },
         false⟩ :=
  ⟨by decide,
   wait_positive_counter_no_decrement
     { links := [5], counter := 2, dirty := false, notifierActive := false }
     7 id (SwitchOutcome.resumed true) (by decide)⟩

/-- C9: round-trip — with `counter > 0`, `acquire()` takes the immediate
path and decrements, and a following `release()` increments, restoring
`counter` to its prior value. -/
theorem acquire_release_round_trip (s : Sem) (cb : Waiter)
    (interim : Sem → Sem) (o : SwitchOutcome) (h : 0 < s.counter) :
    (release (acquireCall s true cb interim o).sem).1.counter = s.counter := by
  have h1 : (acquireCall s true cb interim o).sem = { s with counter := s.counter - 1 } := by
    simp [acquireCall, h]
  rw [h1, release_counter]
  simp

theorem acquire_release_round_trip_witness :
    0 < (3 : Int) ∧
    (release (acquireCall
        { links := [], counter := 3, dirty := false, notifierActive := false }
        true 0 id (SwitchOutcome.resumed true)).sem).1.counter = 3 :=
  ⟨by decide,
   acquire_release_round_trip
     { links := [], counter := 3, dirty := false, notifierActive := false }
     0 id (SwitchOutcome.resumed true) (by decide)⟩

/-- C10: `Semaphore.unlink(callback)` with a callback that is not
registered is a silent no-op — the state (waiter list and `_dirty` flag
included) is returned unchanged and no error is possible — whereas a
successful unlink removes one entry and sets `_dirty`. -/
theorem unlink_missing_callback_noop (s : Sem) (cb : Waiter) :
    (cb ∉ s.links → unlink s cb = s) ∧
    (cb ∈ s.links →
      (unlink s cb).dirty = true ∧ (unlink s cb).links.length + 1 = s.links.length) := by
  constructor
  · intro hnot
    have hr : removeFirst s.links cb = none := (removeFirst_eq_none_iff s.links cb).mpr hnot
    simp [unlink, hr]
  · intro hmem
    cases hr : removeFirst s.links cb with
    | some l2 =>
      have := removeFirst_length s.links l2 cb hr
      simp [unlink, hr, this]
    | none =>
      exact absurd ((removeFirst_eq_none_iff s.links cb).mp hr) (not_not.mpr hmem)

theorem unlink_missing_callback_noop_witness :
    unlink { links := [1, 2], counter := 0, dirty := false, notifierActive := false } 3
      = { links := [1, 2], counter := 0, dirty := false, notifierActive := false } ∧
    (unlink { links := [1, 2], counter := 0, dirty := false, notifierActive := false } 1).dirty
      = true :=
  ⟨(unlink_missing_callback_noop
      { links := [1, 2], counter := 0, dirty := false, notifierActive := false } 3).1
      (by decide),
   ((unlink_missing_callback_noop
      { links := [1, 2], counter := 0, dirty := false, notifierActive := false } 1).2
      (by decide)).1⟩

theorem acquireN_drains : ∀ (n : Nat) (s : Sem), s.counter = (n : Int) →
    acquireN n s = (true, { s with counter := 0 })
  | 0, s => by
    intro h
    obtain ⟨ls, c, d, a⟩ := s
    simp only [Nat.cast_zero] at h
    simp [acquireN, h]
  | n + 1, s => by
    intro h
    have hpos : 0 < s.counter := by
      rw [h]
      exact_mod_cast Nat.succ_pos n
    have h1 : acquireCall s true 0 id (SwitchOutcome.resumed true)
        = ⟨.ok true, { s with counter := s.counter - 1 }, false⟩ := by
      simp [acquireCall, hpos]
    have h2 : ({ s with counter := s.counter - 1 } : Sem).counter = (n : Int) := by
      simp only [h]
      push_cast
      ring
    have ih := acquireN_drains n { s with counter := s.counter - 1 } h2
    simp only [acquireN, h1]
    exact ih

/-- C1: `Semaphore.__init__(v)` for `v ≥ 0` yields the fresh state with
`counter = v`; from it, exactly `v` consecutive `acquire()` calls return
`True` on the immediate (no-suspension) path, driving the counter to 0;
the next `acquire(blocking=False)` returns `False`; and a negative
initial value raises `ValueError`. -/
theorem sem_initial_value_acquire_count (v : Nat) (z : Int) (hz : z < 0) :
    pySemaphoreInit (v : Int)
      = .ok { links := [], counter := (v : Int), dirty := false, notifierActive := false } ∧
    acquireN v { links := [], counter := (v : Int), dirty := false, notifierActive := false }
      = (true, { links := [], counter := 0, dirty := false, notifierActive := false }) ∧
    (acquireCall { links := [], counter := 0, dirty := false, notifierActive := false }
        false 0 id (SwitchOutcome.resumed true)).result = .ok false ∧
    pySemaphoreInit z
      = .error ⟨.valueError, "semaphore initial value must be >= 0"⟩ := by
    refine ⟨?_, ?_, ?_, ?_⟩
    · have : ¬((v : Int) < 0) := by exact_mod_cast Int.not_lt.mpr (Int.natCast_nonneg v)
      simp [pySemaphoreInit, this]
    · exact acquireN_drains v _ rfl
    · simp [acquireCall]
    · simp [pySemaphoreInit, hz]

theorem sem_initial_value_acquire_count_witness :
    (-1 : Int) < 0 ∧
    (pySemaphoreInit ((2 : Nat) : Int)
      = .ok { links := [], counter := 2, dirty := false, notifierActive := false } ∧
    acquireN 2 { links := [], counter := ((2 : Nat) : Int), dirty := false, notifierActive := false }
      = (true, { links := [], counter := 0, dirty := false, notifierActive := false }) ∧
    (acquireCall { links := [], counter := 0, dirty := false, notifierActive := false }
        false 0 id (SwitchOutcome.resumed true)).result = .ok false ∧
    pySemaphoreInit (-1)
      = .error ⟨.valueError, "semaphore initial value must be >= 0"⟩) :=
  ⟨by decide, sem_initial_value_acquire_count 2 (-1) (by decide)⟩

/-- C5 (counterexample): the over-release rejection and the negative
initial-value usage error are raised with the *same* exception class —
Python `ValueError` — so the over-release failure is not an error kind
distinguishable from usage errors; only the message differs. -/
theorem bounded_release_error_kind_counterexample :
    (boundedRelease
        { sem := { links := [], counter := 1, dirty := false, notifierActive := false },
          initialValue := 1 }).1
      = Except.error { kind := ExcKind.valueError, msg := "Semaphore released too many times" } ∧
    pySemaphoreInit (-1)
      = Except.error { kind := ExcKind.valueError, msg := "semaphore initial value must be >= 0" } := by
  constructor
  · decide
  · decide

/-- C5 (amended): `BoundedSemaphore.release()` with
`counter >= initial_value` fails with a `ValueError` carrying the message
"Semaphore released too many times" — the same exception class as usage
errors, distinguishable from them only by message — and performs no state
change at all; with `counter < initial_value` it delegates exactly to
`Semaphore.release`. -/
theorem bounded_release_over_release_rejected (b : BSem) :
    (b.initialValue ≤ b.sem.counter →
      boundedRelease b
        = (.error ⟨.valueError, "Semaphore released too many times"⟩, b, false, [])) ∧
    (b.sem.counter < b.initialValue →
      boundedRelease b
        = (.ok (), { b with sem := (release b.sem).1 },
           (release b.sem).2.1, (release b.sem).2.2)) := by
  constructor
  · intro h
    simp [boundedRelease, h]
  · intro h
    have h2 : ¬b.initialValue ≤ b.sem.counter := by omega
    simp [boundedRelease, h2]

theorem bounded_release_over_release_rejected_witness :
    ((1 : Int) ≤ 1 ∧
      boundedRelease
        { sem := { links := [], counter := 1, dirty := false, notifierActive := false },
          initialValue := 1 }
        = (.error ⟨.valueError, "Semaphore released too many times"⟩,
           { sem := { links := [], counter := 1, dirty := false, notifierActive := false },
             initialValue := 1 }, false, [])) ∧
    ((0 : Int) < 1 ∧
      boundedRelease
        { sem := { links := [], counter := 0, dirty := false, notifierActive := false },
          initialValue := 1 }
        = (.ok (),
           { sem := { links := [], counter := 1, dirty := false, notifierActive := false },
             initialValue := 1 }, false, [])) :=
  ⟨⟨by decide,
    (bounded_release_over_release_rejected
      { sem := { links := [], counter := 1, dirty := false, notifierActive := false },
        initialValue := 1 }).1 (by decide)⟩,
   ⟨by decide,
    (bounded_release_over_release_rejected
      { sem := { links := [], counter := 0, dirty := false, notifierActive := false },
        initialValue := 1 }).2 (by decide)⟩⟩

/-- C7 (counterexample): `DummySemaphore.acquire` is `pass` — it returns
`None`, not a success value `True`, so "acquire returns a success (true)
result" fails on the code. -/
theorem dummy_acquire_returns_none_counterexample :
    dummyStep (DOp.acquire true Option.none) = PyVal.none ∧
    dummyStep (DOp.acquire true Option.none) ≠ PyVal.bool true := by
  constructor
  · rfl
  · decide

/-- C7 (amended): scripting any sequence of operations against a
`DummySemaphore` never blocks and never raises (each operation is a total
function into plain values, one result per operation), `locked()` is the
only operation answering `False` — every other operation, `acquire`
included, is a no-op returning `None` and thus never returns `True`. -/
theorem dummy_semaphore_total_noop (ops : List DOp) (op : DOp) (h : op ∈ ops) :
    (dummyRun ops).length = ops.length ∧
    dummyStep op ≠ PyVal.bool true ∧
    (op = DOp.locked ↔ dummyStep op = PyVal.bool false) ∧
    (op ≠ DOp.locked → dummyStep op = PyVal.none) := by
  refine ⟨by simp [dummyRun], ?_, ?_, ?_⟩ <;> cases op <;> simp [dummyStep]

theorem dummy_semaphore_total_noop_witness :
    DOp.acquire true Option.none ∈ [DOp.acquire true Option.none, DOp.locked] ∧
    ((dummyRun [DOp.acquire true Option.none, DOp.locked]).length = 2 ∧
     dummyStep (DOp.acquire true Option.none) ≠ PyVal.bool true ∧
     (DOp.acquire true Option.none = DOp.locked ↔
       dummyStep (DOp.acquire true Option.none) = PyVal.bool false) ∧
     (DOp.acquire true Option.none ≠ DOp.locked →
       dummyStep (DOp.acquire true Option.none) = PyVal.none)) :=
  ⟨by decide,
   dummy_semaphore_total_noop [DOp.acquire true Option.none, DOp.locked]
     (DOp.acquire true Option.none) (by decide)⟩

theorem acquireResume_sem_links (s : Sem) (cb : Waiter) (o : SwitchOutcome) :
    (acquireResume s cb o).sem.links = (unlink s cb).links := by
  unfold acquireResume
  cases acquireInner o with
  | retFalse => rfl
  | toRaise e => rfl
  | proceed =>
    simp only []
    split <;> rfl

theorem acquireResume_cancelled (s : Sem) (cb : Waiter) (o : SwitchOutcome) :
    (acquireResume s cb o).timerCancelled = true := by
  unfold acquireResume
  cases acquireInner o with
  | retFalse => rfl
  | toRaise e => rfl
  | proceed =>
    simp only []
    split <;> rfl

theorem waitResume_sem_links (s : Sem) (cb : Waiter) (o : SwitchOutcome) :
    (waitResume s cb o).sem.links = (unlink s cb).links := by
  unfold waitResume
  cases waitInner o <;> rfl

theorem waitResume_cancelled (s : Sem) (cb : Waiter) (o : SwitchOutcome) :
    (waitResume s cb o).timerCancelled = true := by
  unfold waitResume
  cases waitInner o <;> rfl

/-- C3: on the blocking paths of `acquire` and `wait`, every exit — normal
resume, the call's own timeout, an unrelated timeout, or a propagated
error — cancels the armed timer (`timer.cancel()` sits in a `finally`)
and unregisters the waiter callback (`unlink` sits in the outer
`finally`, removing one registration of `cb`); and the call's own timer
firing makes `acquire` return `False`, while an unrelated `Timeout` or
any other error propagates out of both `acquire` and `wait`. -/
theorem blocking_exit_paths_cleanup (s : Sem) (cb : Waiter) (o : SwitchOutcome) :
    (acquireResume s cb o).timerCancelled = true ∧
    (acquireResume s cb o).sem.links.count cb = s.links.count cb - 1 ∧
    (waitResume s cb o).timerCancelled = true ∧
    (waitResume s cb o).sem.links.count cb = s.links.count cb - 1 ∧
    (∀ e, o = SwitchOutcome.timeoutFired true e →
      (acquireResume s cb o).result = .ok false) ∧
    (∀ e, o = SwitchOutcome.timeoutFired false e →
      (acquireResume s cb o).result = .error e) ∧
    (∀ e, o = SwitchOutcome.raised e →
      (acquireResume s cb o).result = .error e) ∧
    (∀ e, o = SwitchOutcome.timeoutFired false e →
      (waitResume s cb o).result = .error e) ∧
    (∀ e, o = SwitchOutcome.raised e →
      (waitResume s cb o).result = .error e) := by
  refine ⟨acquireResume_cancelled s cb o, ?_, waitResume_cancelled s cb o, ?_,
          ?_, ?_, ?_, ?_, ?_⟩
  · rw [acquireResume_sem_links]
    exact unlink_count s cb
  · rw [waitResume_sem_links]
    exact unlink_count s cb
  · rintro e rfl
    simp [acquireResume, acquireInner]
  · rintro e rfl
    simp [acquireResume, acquireInner]
  · rintro e rfl
    simp [acquireResume, acquireInner]
  · rintro e rfl
    simp [waitResume, waitInner]
  · rintro e rfl
    simp [waitResume, waitInner]

theorem blocking_exit_paths_cleanup_witness :
    (acquireResume { links := [7], counter := 0, dirty := false, notifierActive := false } 7
        (SwitchOutcome.timeoutFired true ⟨.timeoutError, "timeout"⟩)).timerCancelled = true ∧
    (acquireResume { links := [7], counter := 0, dirty := false, notifierActive := false } 7
        (SwitchOutcome.timeoutFired true ⟨.timeoutError, "timeout"⟩)).sem.links.count 7 = 0 ∧
    (acquireResume { links := [7], counter := 0, dirty := false, notifierActive := false } 7
        (SwitchOutcome.timeoutFired true ⟨.timeoutError, "timeout"⟩)).result = .ok false := by
  obtain ⟨h1, h2, _, _, h5, _⟩ :=
    blocking_exit_paths_cleanup
      { links := [7], counter := 0, dirty := false, notifierActive := false } 7
      (SwitchOutcome.timeoutFired true ⟨.timeoutError, "timeout"⟩)
  refine ⟨h1, ?_, h5 ⟨.timeoutError, "timeout"⟩ rfl⟩
  simpa using h2

/-- The invocation events of a drain trace: which callback was called, and
the counter value at that moment. -/
def invokesOf : List Ev → List (Waiter × Int)
  | [] => []
  | Ev.invoke w c :: rest => (w, c) :: invokesOf rest
  | Ev.report _ _ :: rest => invokesOf rest

theorem invokesOf_append : ∀ (a b : List Ev),
    invokesOf (a ++ b) = invokesOf a ++ invokesOf b
  | [], _ => rfl
  | Ev.invoke w c :: rest, b => by
    simp [invokesOf, invokesOf_append rest b]
  | Ev.report w e :: rest, b => by
    simp [invokesOf, invokesOf_append rest b]

theorem invokesOf_head (x : Waiter) (c : Int) (opt : Option Exc) :
    invokesOf (Ev.invoke x c ::
      (match opt with
       | some e => [Ev.report x e]
       | none => [])) = [(x, c)] := by
  cases opt <;> simp [invokesOf]

/-- The events one drained callback contributes: its invocation, then the
report of its escaping exception, if any. -/
def evsHead (x : Waiter) (c : Int) (opt : Option Exc) : List Ev :=
  Ev.invoke x c ::
    (match opt with
     | some e => [Ev.report x e]
     | none => [])

theorem invokesOf_evsHead (x : Waiter) (c : Int) (opt : Option Exc) :
    invokesOf (evsHead x c opt) = [(x, c)] := by
  cases opt <;> simp [evsHead, invokesOf]

theorem mem_invoke_evsHead (w : Waiter) (cc : Int) (x : Waiter) (c : Int)
    (opt : Option Exc) :
    Ev.invoke w cc ∈ evsHead x c opt ↔ w = x ∧ cc = c := by
  cases opt <;> simp [evsHead]

theorem mem_report_evsHead (w : Waiter) (e : Exc) (x : Waiter) (c : Int)
    (opt : Option Exc) :
    Ev.report w e ∈ evsHead x c opt → w = x ∧ opt = some e := by
  cases opt with
  | none => simp [evsHead]
  | some e2 =>
    simp only [evsHead, List.mem_cons, List.not_mem_nil, or_false]
    rintro (h | h)
    · cases h
    · injection h with h1 h2
      exact ⟨h1, by rw [h2]⟩

theorem notifyPass_cons_ret (env : CbEnv) (x : Waiter) (rest : List Waiter)
    (s : Sem) (hc : s.counter ≤ 0) :
    notifyPass env (x :: rest) s = (s, [], PassOut.ret) := by
  simp only [notifyPass, if_pos hc]

theorem notifyPass_cons_dirty (env : CbEnv) (x : Waiter) (rest : List Waiter)
    (s s1 : Sem) (opt : Option Exc) (henv : env x s = (s1, opt))
    (hc : ¬s.counter ≤ 0) (hd : s1.dirty = true) :
    notifyPass env (x :: rest) s = (s1, evsHead x s.counter opt, PassOut.restart) := by
  simp [notifyPass, henv, if_neg hc, hd, evsHead]

theorem notifyPass_cons_clean (env : CbEnv) (x : Waiter) (rest : List Waiter)
    (s s1 : Sem) (opt : Option Exc) (henv : env x s = (s1, opt))
    (hc : ¬s.counter ≤ 0) (hd : s1.dirty = false) :
    notifyPass env (x :: rest) s =
      ((notifyPass env rest s1).1,
       evsHead x s.counter opt ++ (notifyPass env rest s1).2.1,
       (notifyPass env rest s1).2.2) := by
  simp [notifyPass, henv, if_neg hc, hd, evsHead]

theorem notifyPass_invoke_pos (env : CbEnv) :
    ∀ (l : List Waiter) (s : Sem) (w : Waiter) (c : Int),
      Ev.invoke w c ∈ (notifyPass env l s).2.1 → 0 < c
  | [], s, w, c => by
    intro hmem
    simp [notifyPass] at hmem
  | x :: rest, s, w, c => by
    intro hmem
    by_cases hc : s.counter ≤ 0
    · rw [notifyPass_cons_ret env x rest s hc] at hmem
      simp at hmem
    · have hpos : 0 < s.counter := lt_of_not_le hc
      rcases henv : env x s with ⟨s1, opt⟩
      cases hd : s1.dirty with
      | true =>
        rw [notifyPass_cons_dirty env x rest s s1 opt henv hc hd] at hmem
        obtain ⟨-, rfl⟩ :=
          (mem_invoke_evsHead w c x s.counter opt).mp (by simpa using hmem)
        exact hpos
      | false =>
        rw [notifyPass_cons_clean env x rest s s1 opt henv hc hd] at hmem
        have hmem2 : Ev.invoke w c ∈
            evsHead x s.counter opt ++ (notifyPass env rest s1).2.1 := by
          simpa using hmem
        rcases List.mem_append.mp hmem2 with hmem3 | hmem3
        · obtain ⟨-, rfl⟩ := (mem_invoke_evsHead w c x s.counter opt).mp hmem3
          exact hpos
        · exact notifyPass_invoke_pos env rest s1 w c hmem3

theorem notifyPass_report_invoked (env : CbEnv) :
    ∀ (l : List Waiter) (s : Sem) (w : Waiter) (e : Exc),
      Ev.report w e ∈ (notifyPass env l s).2.1 →
      ∃ c, Ev.invoke w c ∈ (notifyPass env l s).2.1 ∧ 0 < c
  | [], s, w, e => by
    intro hmem
    simp [notifyPass] at hmem
  | x :: rest, s, w, e => by
    intro hmem
    by_cases hc : s.counter ≤ 0
    · rw [notifyPass_cons_ret env x rest s hc] at hmem
      simp at hmem
    · have hpos : 0 < s.counter := lt_of_not_le hc
      rcases henv : env x s with ⟨s1, opt⟩
      cases hd : s1.dirty with
      | true =>
        rw [notifyPass_cons_dirty env x rest s s1 opt henv hc hd] at hmem ⊢
        obtain ⟨hwx, -⟩ := mem_report_evsHead w e x s.counter opt (by simpa using hmem)
        refine ⟨s.counter, ?_, hpos⟩
        have hx : Ev.invoke w s.counter ∈ evsHead x s.counter opt :=
          (mem_invoke_evsHead w s.counter x s.counter opt).mpr ⟨hwx, rfl⟩
        simpa using hx
      | false =>
        rw [notifyPass_cons_clean env x rest s s1 opt henv hc hd] at hmem ⊢
        have hmem2 : Ev.report w e ∈
            evsHead x s.counter opt ++ (notifyPass env rest s1).2.1 := by
          simpa using hmem
        rcases List.mem_append.mp hmem2 with hmem3 | hmem3
        · obtain ⟨hwx, -⟩ := mem_report_evsHead w e x s.counter opt hmem3
          refine ⟨s.counter, ?_, hpos⟩
          have hx : Ev.invoke w s.counter ∈ evsHead x s.counter opt :=
            (mem_invoke_evsHead w s.counter x s.counter opt).mpr ⟨hwx, rfl⟩
          simpa using List.mem_append.mpr (Or.inl hx)
        · obtain ⟨c, hcmem, hcpos⟩ :=
            notifyPass_report_invoked env rest s1 w e hmem3
          refine ⟨c, ?_, hcpos⟩
          simpa using List.mem_append.mpr (Or.inr hcmem)

theorem notifyPass_env_agree (env₁ env₂ : CbEnv)
    (h : ∀ w t, (env₁ w t).1 = (env₂ w t).1) :
    ∀ (l : List Waiter) (s : Sem),
      (notifyPass env₁ l s).1 = (notifyPass env₂ l s).1 ∧
      invokesOf (notifyPass env₁ l s).2.1 = invokesOf (notifyPass env₂ l s).2.1 ∧
      (notifyPass env₁ l s).2.2 = (notifyPass env₂ l s).2.2
  | [], s => by simp [notifyPass]
  | x :: rest, s => by
    by_cases hc : s.counter ≤ 0
    · rw [notifyPass_cons_ret env₁ x rest s hc, notifyPass_cons_ret env₂ x rest s hc]
      exact ⟨rfl, rfl, rfl⟩
    · rcases henv1 : env₁ x s with ⟨s1, opt1⟩
      rcases henv2 : env₂ x s with ⟨s2, opt2⟩
      have hs : s1 = s2 := by
        have hfst := h x s
        rw [henv1, henv2] at hfst
        exact hfst
      subst hs
      cases hd : s1.dirty with
      | true =>
        rw [notifyPass_cons_dirty env₁ x rest s s1 opt1 henv1 hc hd,
            notifyPass_cons_dirty env₂ x rest s s1 opt2 henv2 hc hd]
        exact ⟨rfl, by rw [invokesOf_evsHead, invokesOf_evsHead], rfl⟩
      | false =>
        rw [notifyPass_cons_clean env₁ x rest s s1 opt1 henv1 hc hd,
            notifyPass_cons_clean env₂ x rest s s1 opt2 henv2 hc hd]
        obtain ⟨ih1, ih2, ih3⟩ := notifyPass_env_agree env₁ env₂ h rest s1
        refine ⟨ih1, ?_, ih3⟩
        rw [invokesOf_append, invokesOf_append, invokesOf_evsHead,
          invokesOf_evsHead, ih2]

theorem notifyLinks_succ_restart (env : CbEnv) (fuel : Nat) (s : Sem)
    (hout : (notifyPass env s.links { s with dirty := false }).2.2 = PassOut.restart) :
    notifyLinks env (fuel + 1) s =
      ((notifyLinks env fuel (notifyPass env s.links { s with dirty := false }).1).1,
       (notifyPass env s.links { s with dirty := false }).2.1 ++
         (notifyLinks env fuel (notifyPass env s.links { s with dirty := false }).1).2) := by
  simp only [notifyLinks]
  rw [hout]

theorem notifyLinks_succ_ret (env : CbEnv) (fuel : Nat) (s : Sem)
    (hout : (notifyPass env s.links { s with dirty := false }).2.2 = PassOut.ret) :
    notifyLinks env (fuel + 1) s =
      ((notifyPass env s.links { s with dirty := false }).1,
       (notifyPass env s.links { s with dirty := false }).2.1) := by
  simp only [notifyLinks]
  rw [hout]

theorem notifyLinks_succ_done (env : CbEnv) (fuel : Nat) (s : Sem)
    (hout : (notifyPass env s.links { s with dirty := false }).2.2 = PassOut.done) :
    notifyLinks env (fuel + 1) s =
      ((notifyPass env s.links { s with dirty := false }).1,
       (notifyPass env s.links { s with dirty := false }).2.1) := by
  simp only [notifyLinks]
  rw [hout]

theorem notifyLinks_invoke_pos (env : CbEnv) :
    ∀ (fuel : Nat) (s : Sem) (w : Waiter) (c : Int),
      Ev.invoke w c ∈ (notifyLinks env fuel s).2 → 0 < c
  | 0, s, w, c => by
    intro hmem
    simp [notifyLinks] at hmem
  | fuel + 1, s, w, c => by
    intro hmem
    cases hout : (notifyPass env s.links { s with dirty := false }).2.2 with
    | restart =>
      rw [notifyLinks_succ_restart env fuel s hout] at hmem
      have hmem2 : Ev.invoke w c ∈
          (notifyPass env s.links { s with dirty := false }).2.1 ++
            (notifyLinks env fuel
              (notifyPass env s.links { s with dirty := false }).1).2 := by
        simpa using hmem
      rcases List.mem_append.mp hmem2 with h3 | h3
      · exact notifyPass_invoke_pos env _ _ w c h3
      · exact notifyLinks_invoke_pos env fuel _ w c h3
    | ret =>
      rw [notifyLinks_succ_ret env fuel s hout] at hmem
      exact notifyPass_invoke_pos env _ _ w c (by simpa using hmem)
    | done =>
      rw [notifyLinks_succ_done env fuel s hout] at hmem
      exact notifyPass_invoke_pos env _ _ w c (by simpa using hmem)

theorem notifyLinks_report_invoked (env : CbEnv) :
    ∀ (fuel : Nat) (s : Sem) (w : Waiter) (e : Exc),
      Ev.report w e ∈ (notifyLinks env fuel s).2 →
      ∃ c, Ev.invoke w c ∈ (notifyLinks env fuel s).2 ∧ 0 < c
  | 0, s, w, e => by
    intro hmem
    simp [notifyLinks] at hmem
  | fuel + 1, s, w, e => by
    intro hmem
    cases hout : (notifyPass env s.links { s with dirty := false }).2.2 with
    | restart =>
      rw [notifyLinks_succ_restart env fuel s hout] at hmem ⊢
      have hmem2 : Ev.report w e ∈
          (notifyPass env s.links { s with dirty := false }).2.1 ++
            (notifyLinks env fuel
              (notifyPass env s.links { s with dirty := false }).1).2 := by
        simpa using hmem
      rcases List.mem_append.mp hmem2 with h3 | h3
      · obtain ⟨c, hcmem, hcpos⟩ := notifyPass_report_invoked env _ _ w e h3
        exact ⟨c, by simpa using List.mem_append.mpr (Or.inl hcmem), hcpos⟩
      · obtain ⟨c, hcmem, hcpos⟩ := notifyLinks_report_invoked env fuel _ w e h3
        exact ⟨c, by simpa using List.mem_append.mpr (Or.inr hcmem), hcpos⟩
    | ret =>
      rw [notifyLinks_succ_ret env fuel s hout] at hmem ⊢
      obtain ⟨c, hcmem, hcpos⟩ :=
        notifyPass_report_invoked env _ _ w e (by simpa using hmem)
      exact ⟨c, by simpa using hcmem, hcpos⟩
    | done =>
      rw [notifyLinks_succ_done env fuel s hout] at hmem ⊢
      obtain ⟨c, hcmem, hcpos⟩ :=
        notifyPass_report_invoked env _ _ w e (by simpa using hmem)
      exact ⟨c, by simpa using hcmem, hcpos⟩

theorem notifyLinks_env_agree (env₁ env₂ : CbEnv)
    (h : ∀ w t, (env₁ w t).1 = (env₂ w t).1) :
    ∀ (fuel : Nat) (s : Sem),
      (notifyLinks env₁ fuel s).1 = (notifyLinks env₂ fuel s).1 ∧
      invokesOf (notifyLinks env₁ fuel s).2 = invokesOf (notifyLinks env₂ fuel s).2
  | 0, s => by simp [notifyLinks]
  | fuel + 1, s => by
    obtain ⟨hp1, hp2, hp3⟩ :=
      notifyPass_env_agree env₁ env₂ h s.links { s with dirty := false }
    cases hout : (notifyPass env₁ s.links { s with dirty := false }).2.2 with
    | restart =>
      have hout2 := hp3.symm.trans hout
      rw [notifyLinks_succ_restart env₁ fuel s hout,
          notifyLinks_succ_restart env₂ fuel s hout2]
      obtain ⟨ih1, ih2⟩ :=
        notifyLinks_env_agree env₁ env₂ h fuel
          (notifyPass env₁ s.links { s with dirty := false }).1
      have hcong :
          notifyLinks env₂ fuel (notifyPass env₁ s.links { s with dirty := false }).1
            = notifyLinks env₂ fuel
                (notifyPass env₂ s.links { s with dirty := false }).1 := by
        rw [hp1]
      refine ⟨?_, ?_⟩
      · show (notifyLinks env₁ fuel
              (notifyPass env₁ s.links { s with dirty := false }).1).1
            = (notifyLinks env₂ fuel
              (notifyPass env₂ s.links { s with dirty := false }).1).1
        rw [ih1, hcong]
      · show invokesOf
              ((notifyPass env₁ s.links { s with dirty := false }).2.1 ++
               (notifyLinks env₁ fuel
                 (notifyPass env₁ s.links { s with dirty := false }).1).2)
            = invokesOf
              ((notifyPass env₂ s.links { s with dirty := false }).2.1 ++
               (notifyLinks env₂ fuel
                 (notifyPass env₂ s.links { s with dirty := false }).1).2)
        rw [invokesOf_append, invokesOf_append, hp2, ih2, hcong]
    | ret =>
      have hout2 := hp3.symm.trans hout
      rw [notifyLinks_succ_ret env₁ fuel s hout,
          notifyLinks_succ_ret env₂ fuel s hout2]
      exact ⟨hp1, hp2⟩
    | done =>
      have hout2 := hp3.symm.trans hout
      rw [notifyLinks_succ_done env₁ fuel s hout,
          notifyLinks_succ_done env₂ fuel s hout2]
      exact ⟨hp1, hp2⟩

/-- C4: during `_notify_links`, (a) exceptions escaping individual waiter
callbacks are caught per-callback and do not change which callbacks the
drain invokes nor the resulting semaphore state — formally, two callback
environments with identical state effects but arbitrarily different
raising behaviour yield the same final state and the same invocation
sequence; (b) every reported exception was forwarded with its raising
callback as context (a matching invocation of that callback exists in the
trace); and (c) no callback is ever invoked while `counter <= 0` — every
invocation in the trace happened at a positive counter. -/
theorem notify_links_error_isolation (env₁ env₂ : CbEnv) (fuel : Nat) (s : Sem)
    (h : ∀ w t, (env₁ w t).1 = (env₂ w t).1) :
    ((notifyLinks env₁ fuel s).1 = (notifyLinks env₂ fuel s).1 ∧
     invokesOf (notifyLinks env₁ fuel s).2 = invokesOf (notifyLinks env₂ fuel s).2) ∧
    (∀ w e, Ev.report w e ∈ (notifyLinks env₁ fuel s).2 →
      ∃ c, Ev.invoke w c ∈ (notifyLinks env₁ fuel s).2 ∧ 0 < c) ∧
    (∀ w c, Ev.invoke w c ∈ (notifyLinks env₁ fuel s).2 → 0 < c) :=
  ⟨notifyLinks_env_agree env₁ env₂ h fuel s,
   fun w e hmem => notifyLinks_report_invoked env₁ fuel s w e hmem,
   fun w c hmem => notifyLinks_invoke_pos env₁ fuel s w c hmem⟩

theorem notify_links_error_isolation_witness :
    ((notifyLinks (fun _ t => (t, some ⟨ExcKind.runtimeError, "boom"⟩)) 1
        { links := [4, 5], counter := 2, dirty := false, notifierActive := false }).1
      = (notifyLinks (fun _ t => (t, Option.none)) 1
        { links := [4, 5], counter := 2, dirty := false, notifierActive := false }).1 ∧
     invokesOf (notifyLinks (fun _ t => (t, some ⟨ExcKind.runtimeError, "boom"⟩)) 1
        { links := [4, 5], counter := 2, dirty := false, notifierActive := false }).2
      = invokesOf (notifyLinks (fun _ t => (t, Option.none)) 1
        { links := [4, 5], counter := 2, dirty := false, notifierActive := false }).2) ∧
    (0 : Int) < 2 := by
  obtain ⟨hagree, hrep, hinv⟩ :=
    notify_links_error_isolation
      (fun _ t => (t, some ⟨ExcKind.runtimeError, "boom"⟩))
      (fun _ t => (t, Option.none)) 1
      { links := [4, 5], counter := 2, dirty := false, notifierActive := false }
      (fun _ _ => rfl)
  exact ⟨hagree, hinv 4 2 (by decide)⟩

theorem rlockAcquireN_owner : ∀ (n : Nat) (B : Sem) (cnt : Int) (me : Task),
    rlockAcquireN n ⟨B, some me, cnt⟩ me = .ok (true, ⟨B, some me, cnt + (n : Int)⟩)
  | 0, B, cnt, me => by simp [rlockAcquireN]
  | n + 1, B, cnt, me => by
    have e1 : rlockAcquire ⟨B, some me, cnt⟩ me true 0 id (SwitchOutcome.resumed true)
        = (.ok true, ⟨B, some me, cnt + 1⟩) := by
      simp [rlockAcquire]
    simp only [rlockAcquireN, e1]
    rw [rlockAcquireN_owner n B (cnt + 1) me]
    have harith : cnt + 1 + (n : Int) = cnt + ((n + 1 : Nat) : Int) := by
      push_cast
      ring
    rw [harith]

theorem rlockAcquireN_fresh : ∀ (j : Nat), 1 ≤ j → ∀ (me : Task),
    rlockAcquireN j rlockNew me = .ok (true, lockHeld me j)
  | 0, h, _ => absurd h (by simp)
  | m + 1, _, me => by
    have hown : (none : Option Task) ≠ some me := fun hh => Option.noConfusion hh
    have e1 : rlockAcquire rlockNew me true 0 id (SwitchOutcome.resumed true)
        = (.ok true, lockHeld me 1) := by
      norm_num [rlockAcquire, rlockNew, acquireCall, lockHeld, hown]
    simp only [rlockAcquireN, e1]
    have hm := rlockAcquireN_owner m
      { links := [], counter := 0, dirty := false, notifierActive := false } 1 me
    have h1 : lockHeld me 1 =
        ⟨{ links := [], counter := 0, dirty := false, notifierActive := false },
         some me, 1⟩ := rfl
    rw [h1, hm]
    have harith : (1 : Int) + (m : Int) = ((m + 1 : Nat) : Int) := by
      push_cast
      ring
    simp [lockHeld, harith]

theorem rlockReleaseN_decrement : ∀ (n : Nat) (B : Sem) (cnt : Int) (me : Task),
    (n : Int) < cnt →
    rlockReleaseN n ⟨B, some me, cnt⟩ me = .ok ⟨B, some me, cnt - (n : Int)⟩
  | 0, B, cnt, me => by
    intro h
    simp [rlockReleaseN]
  | n + 1, B, cnt, me => by
    intro h
    have hne : ¬(cnt - 1 = 0) := by
      push_cast at h
      omega
    have e1 : rlockRelease ⟨B, some me, cnt⟩ me = .ok (⟨B, some me, cnt - 1⟩, false) := by
      simp [rlockRelease, hne]
    simp only [rlockReleaseN, e1]
    have hlt : (n : Int) < cnt - 1 := by
      push_cast at h ⊢
      omega
    rw [rlockReleaseN_decrement n B (cnt - 1) me hlt]
    have harith : cnt - 1 - (n : Int) = cnt - ((n + 1 : Nat) : Int) := by
      push_cast
      ring
    rw [harith]

theorem rlockReleaseN_full : ∀ (k : Nat), 1 ≤ k → ∀ (me : Task),
    rlockReleaseN k (lockHeld me k) me = .ok rlockNew
  | 0, h, _ => absurd h (by simp)
  | 1, _, me => by
    norm_num [rlockReleaseN, rlockRelease, lockHeld, release, startNotify, rlockNew]
  | m + 2, _, me => by
    have hne : ¬((m : Int) + 1 = 0) := by omega
    have harith : (m : Int) + 2 - 1 = (m : Int) + 1 := by ring
    have h1 : rlockRelease (lockHeld me (m + 2)) me = .ok (lockHeld me (m + 1), false) := by
      simp [rlockRelease, lockHeld, hne, harith]
    simp only [rlockReleaseN, h1]
    exact rlockReleaseN_full (m + 1) (Nat.succ_le_succ (Nat.zero_le m)) me

/-- C6: RLock reentrancy — starting from a fresh RLock, for every depth
`k ≥ 1`, the owning task's `j`-th acquire (1 ≤ j ≤ k) returns `True` with
owner `me`, depth `j` and the inner `Semaphore(1)` consumed exactly once —
re-entrant acquires never touch it — and `_is_owned()` holds throughout;
the first `j < k` releases keep the owner and the inner semaphore
unchanged, merely decrementing the depth to `k - j`; the `k`-th release
clears the owner and releases the inner semaphore, returning the lock to
its fresh state; and a release by any non-owner task fails with
`RuntimeError` ("cannot release un-aquired lock"). -/
theorem rlock_reentrancy (k : Nat) (me other : Task) (hk : 1 ≤ k) (hother : other ≠ me) :
    (∀ j, 1 ≤ j → j ≤ k →
      rlockAcquireN j rlockNew me = .ok (true, lockHeld me j) ∧
      rlockIsOwned (lockHeld me j) me = true) ∧
    (∀ j, j < k → rlockReleaseN j (lockHeld me k) me = .ok (lockHeld me (k - j))) ∧
    rlockReleaseN k (lockHeld me k) me = .ok rlockNew ∧
    rlockRelease (lockHeld me k) other
      = .error ⟨.runtimeError, "cannot release un-aquired lock"⟩ := by
  refine ⟨?_, ?_, rlockReleaseN_full k hk me, ?_⟩
  · intro j hj1 _
    exact ⟨rlockAcquireN_fresh j hj1 me, by simp [rlockIsOwned, lockHeld]⟩
  · intro j hjk
    have hp := rlockReleaseN_decrement j
      { links := [], counter := 0, dirty := false, notifierActive := false }
      (k : Int) me (by exact_mod_cast hjk)
    have hl : lockHeld me k =
        ⟨{ links := [], counter := 0, dirty := false, notifierActive := false },
         some me, (k : Int)⟩ := rfl
    rw [hl, hp]
    simp [lockHeld, Int.ofNat_sub hjk.le]
  · have hmo : ¬(me = other) := fun hh => hother hh.symm
    simp [rlockRelease, lockHeld, hmo]

theorem rlock_reentrancy_witness :
    1 ≤ 2 ∧ (2 : Task) ≠ 1 ∧
    rlockAcquireN 2 rlockNew 1 = .ok (true, lockHeld 1 2) ∧
    rlockIsOwned (lockHeld 1 2) 1 = true ∧
    rlockReleaseN 1 (lockHeld 1 2) 1 = .ok (lockHeld 1 1) ∧
    rlockReleaseN 2 (lockHeld 1 2) 1 = .ok rlockNew ∧
    rlockRelease (lockHeld 1 2) 2
      = .error ⟨.runtimeError, "cannot release un-aquired lock"⟩ := by
  obtain ⟨hacq, hpart, hfull, hother⟩ := rlock_reentrancy 2 1 2 (by decide) (by decide)
  obtain ⟨ha2, ho2⟩ := hacq 2 (by decide) (by decide)
  exact ⟨by decide, by decide, ha2, ho2, hpart 1 (by decide), hfull, hother⟩

end GeventLock
